import Mathlib

/-!
Shallow embedding of the Amazon price tracker service (`src/main.py`) and
proofs of the specification claims about it.

The embedding models:
* the numeric price extraction (the regex search for
  `[\$]?([0-9,]+\.?[0-9]*)` on an element's stripped text, removal of
  thousands separators, and the Python `float` parse of the captured group);
* the prioritized selector search over a parsed document (`Doc` abstracts
  `BeautifulSoup`: a document maps a CSS selector to the list of texts of
  matching elements, in document order);
* `scrape_amazon_price` with its two candidate URLs, the 503 skip, the
  `raise_for_status` skip, and the mock fallback;
* the SQLite store as a list of rows: `save_price_to_db` appends, and
  `get_price_history_from_db` filters by asin and trailing day window,
  sorts newest first, and derives lowest/highest/title;
* the request handlers `get_current_price`, `get_price_history`,
  `find_deals` with explicit state passing (database value in/out, the
  "current time" as an explicit integer parameter).

Prices are modelled as rationals; timestamps as integers (the day window
`days` is subtracted directly, so one time unit = one day).
-/

/-- First `some` result of `f` over a list, in order; models the
break-on-first-hit loops of the scraper. -/
def firstSome (f : α → Option β) : List α → Option β
  | [] => none
  | x :: xs =>
    match f x with
    | some b => some b
    | none => firstSome f xs

/-- Characters accepted by the `[0-9,]+` part of the price regex. -/
def isDigitOrComma (c : Char) : Bool := c.isDigit || c == ','

/-- Decimal value of a digit string, `foldl`-style (digits are `'0'`–`'9'`). -/
def natOfDigits : List Char → Nat :=
  List.foldl (fun n c => 10 * n + (c.toNat - 48)) 0

/-- Python `float(...)` restricted to the strings the scraper can feed it:
digits with at most one `'.'` (the captured group with commas removed).
Fails (returns `none`, modelling `ValueError`) when no digit is present. -/
def parseDecimal (cs : List Char) : Option ℚ :=
  match cs.dropWhile Char.isDigit with
  | [] =>
    if (cs.takeWhile Char.isDigit).isEmpty then none
    else some (mkRat (natOfDigits (cs.takeWhile Char.isDigit)) 1)
  | '.' :: ds =>
    if ds.all Char.isDigit then
      if (cs.takeWhile Char.isDigit).isEmpty && ds.isEmpty then none
      else some (mkRat ((natOfDigits (cs.takeWhile Char.isDigit) * 10 ^ ds.length +
        natOfDigits ds : ℕ) : Int) (10 ^ ds.length))
    else none
  | _ => none

/-- Group 1 of `re.search(r'[\$]?([0-9,]+\.?[0-9]*)', s)`: the leftmost
maximal run of digits/commas, extended by `'.'` and a digit run when the
run is followed by a dot. `none` when the regex does not match. -/
def groupFrom : List Char → Option (List Char)
  | [] => none
  | c :: cs =>
    if isDigitOrComma c then
      some ((c :: cs).takeWhile isDigitOrComma ++
        (match (c :: cs).dropWhile isDigitOrComma with
         | '.' :: ds => '.' :: ds.takeWhile Char.isDigit
         | _ => []))
    else groupFrom cs

/-- Python `str.strip()` on the texts the scraper handles: drop leading
and trailing whitespace. -/
def pyStrip (s : String) : String :=
  String.mk (((s.toList.dropWhile Char.isWhitespace).reverse.dropWhile
    Char.isWhitespace).reverse)

/-- The whole numeric extraction applied to one element's text:
regex search, `group(1).replace(',', '')`, `float(...)`; `none` models
both "no regex match" and "match fails to parse", which the code treats
alike (move on to the next element). -/
def parsePrice (s : String) : Option ℚ :=
  match groupFrom s.toList with
  | none => none
  | some g => parseDecimal (g.filter (fun c => c != ','))

/-- A parsed document: a CSS selector selects a list of element texts,
in document order (abstracts `BeautifulSoup.select`). -/
structure Doc where
  select : String → List String

/-- Model of `soup.select_one(sel)`: first matching element's text, if any. -/
def selectOne (doc : Doc) (sel : String) : Option String :=
  (doc.select sel).head?

/-- The price selector priority list from `scrape_amazon_price`. -/
def price_selectors : List String :=
  ["span.a-price-whole",
   "span.a-price.a-text-price.a-size-medium.apexPriceToPay span.a-offscreen",
   "span#priceblock_dealprice",
   "span#priceblock_ourprice",
   "span.a-price.a-text-price.a-size-medium span.a-offscreen",
   "span.a-price-range",
   ".a-price .a-offscreen",
   "span[data-a-color=\"price\"]",
   ".a-price-whole"]

/-- The title selector priority list from `scrape_amazon_price`. -/
def title_selectors : List String :=
  ["#productTitle",
   "h1.a-size-large",
   "h1#title",
   ".product-title",
   "h1 span"]

/-- Inner loop of the price search: first element under `sel` whose
stripped text yields a parseable number. -/
def extractPriceFromSelector (doc : Doc) (sel : String) : Option ℚ :=
  firstSome (fun t => parsePrice (pyStrip t)) (doc.select sel)

/-- Outer loop of the price search: first selector (in priority order)
that yields a price; its first parseable element wins. -/
def findPrice (doc : Doc) : Option ℚ :=
  firstSome (extractPriceFromSelector doc) price_selectors

/-- The title search loop: the code `break`s on the first selector whose
`select_one` finds an element, taking that element's stripped text even
when it is empty. -/
def findTitle (doc : Doc) : Option String :=
  firstSome (fun sel => (selectOne doc sel).map pyStrip) title_selectors

/-- Python `x or d` for an optional string `x`: `None` and `""` are falsy. -/
def pyOr : Option String → String → String
  | none, d => d
  | some s, d => if s = "" then d else s

/-- Model of the `title or default` expression used when building the
result dict, where the default is `"Product " ++ asin`. -/
def effTitle (doc : Doc) (asin : String) : String :=
  pyOr (findTitle doc) ("Product " ++ asin)

/-- Outcome of one `session.get`: an exception, or a response with a
status code and a parsed body. -/
inductive FetchResult where
  | netError : FetchResult
  | page : Nat → Doc → FetchResult

/-- The dict returned by `scrape_amazon_price`. -/
structure ProductData where
  asin : String
  title : String
  price : ℚ
  currency : String
  url : String
deriving DecidableEq

/-- The two candidate listing-page URLs, in order. -/
def urls_to_try (asin : String) : List String :=
  ["https://www.amazon.com/dp/" ++ asin,
   "https://www.amazon.com/gp/product/" ++ asin]

/-- The mock product returned when every URL attempt fails. -/
def mockProduct (asin : String) : ProductData :=
  { asin := asin,
    title := "Mock Product " ++ asin ++ " (Scraping blocked - need proxy)",
    price := mkRat 9999 100,
    currency := "USD",
    url := "https://www.amazon.com/dp/" ++ asin }

/-- One iteration of the URL loop: skip (`none`) on request exception, on
status 503, or when `raise_for_status` raises (4xx/5xx); otherwise parse
and return a product exactly when a price was found. A parsed page with
no extractable price also falls through to the next URL. -/
def tryUrl (world : String → FetchResult) (asin url : String) : Option ProductData :=
  match world url with
  | .netError => none
  | .page st doc =>
    if st = 503 then none
    else if 400 ≤ st ∧ st < 600 then none
    else
      match findPrice doc with
      | some p => some ⟨asin, effTitle doc asin, p, "USD", url⟩
      | none => none

/-- Model of `scrape_amazon_price`: try each URL in order, fall back to the mock
product if none yields a price. Total: never fails outward. -/
def scrape_amazon_price (world : String → FetchResult) (asin : String) : ProductData :=
  match firstSome (tryUrl world asin) (urls_to_try asin) with
  | some pd => pd
  | none => mockProduct asin

/-- One row of the `price_history` table (the autoincrement `id` column is
the row's position in the list and is not modelled as a field). -/
structure Row where
  asin : String
  title : String
  price : ℚ
  currency : String
  timestamp : Int
  url : String
deriving DecidableEq

/-- The row inserted for a scraped product; `timestamp` is the write-time
`CURRENT_TIMESTAMP`. -/
def mkRow (pd : ProductData) (t : Int) : Row :=
  { asin := pd.asin, title := pd.title, price := pd.price,
    currency := pd.currency, timestamp := t, url := pd.url }

/-- Model of `save_price_to_db`: the `INSERT` appends one row. -/
def save_price_to_db (db : List Row) (pd : ProductData) (t : Int) : List Row :=
  db ++ [mkRow pd t]

/-- Row order of `ORDER BY timestamp DESC`: `a` before `b` when
`b.timestamp ≤ a.timestamp`. -/
def rowGE (a b : Row) : Prop := b.timestamp ≤ a.timestamp

instance : DecidableRel rowGE := fun a b => Int.decLe _ _

instance : IsTotal Row rowGE := ⟨fun a b => le_total b.timestamp a.timestamp⟩

instance : IsTrans Row rowGE := ⟨fun _ _ _ h h' => le_trans h' h⟩

/-- The `ORDER BY timestamp DESC` clause modelled as a (stable) sort,
newest first. -/
def sortDesc (l : List Row) : List Row := List.insertionSort rowGE l

/-- The `WHERE` clause: same asin and capture timestamp within the trailing
`days`-day window ending at `now`. -/
def rowMatches (asin : String) (days now : Int) (r : Row) : Bool :=
  r.asin == asin && decide (now - days ≤ r.timestamp)

/-- The rows the history `SELECT` returns, newest first. -/
def queryRows (db : List Row) (asin : String) (days now : Int) : List Row :=
  sortDesc (db.filter (rowMatches asin days now))

/-- The dict built by `get_price_history_from_db` on a non-empty result. -/
structure HistoryData where
  asin : String
  title : String
  price_history : List (ℚ × Int)
  lowest_price : ℚ
  highest_price : ℚ
deriving DecidableEq

/-- Model of `get_price_history_from_db`: `none` models the `None` returned when no
row matches; otherwise title of the first (newest) row, the (price,
timestamp) pairs, and `min`/`max` over the returned prices. -/
def get_price_history_from_db (db : List Row) (asin : String) (days now : Int) :
    Option HistoryData :=
  match queryRows db asin days now with
  | [] => none
  | r :: rs =>
    some { asin := asin,
           title := r.title,
           price_history := (r :: rs).map (fun x => (x.price, x.timestamp)),
           lowest_price := (rs.map Row.price).foldl min r.price,
           highest_price := (rs.map Row.price).foldl max r.price }

/-- The `PriceResponse` model returned by the current-price route. -/
structure PriceResponse where
  asin : String
  title : String
  current_price : ℚ
  currency : String
  url : String
  last_updated : Int
deriving DecidableEq

/-- The `get_current_price` handler: scrape, append, reshape. Returns the
response together with the database state after the call. -/
def get_current_price (world : String → FetchResult) (asin : String)
    (db : List Row) (now : Int) : PriceResponse × List Row :=
  let pd := scrape_amazon_price world asin
  ({ asin := pd.asin, title := pd.title, current_price := pd.price,
     currency := pd.currency, url := pd.url, last_updated := now },
   save_price_to_db db pd now)

/-- The `PriceHistoryResponse` model returned by the history route. -/
structure PriceHistoryResponse where
  asin : String
  title : String
  price_history : List (ℚ × Int)
  lowest_price : ℚ
  highest_price : ℚ
deriving DecidableEq

/-- The `get_price_history` handler. Returns the response, the database state
after the call, and the number of extractor invocations the call performed
(1 on the empty-history fallback path, 0 otherwise). -/
def get_price_history (world : String → FetchResult) (asin : String)
    (days : Int) (db : List Row) (now : Int) :
    PriceHistoryResponse × List Row × Nat :=
  match get_price_history_from_db db asin days now with
  | none =>
    let pd := scrape_amazon_price world asin
    ({ asin := asin, title := pd.title,
       price_history := [(pd.price, now)],
       lowest_price := pd.price, highest_price := pd.price },
     save_price_to_db db pd now, 1)
  | some h =>
    ({ asin := h.asin, title := h.title, price_history := h.price_history,
       lowest_price := h.lowest_price, highest_price := h.highest_price },
     db, 0)

/-- The dict returned by the `/deals/{category}` handler. -/
structure DealsResponse where
  message : String
  category : String
  min_discount : String
  note : String
deriving DecidableEq

/-- The `find_deals` handler: a static acknowledgment; `category` and
`min_discount` are echoed, `limit` is accepted but not used. The function
takes no fetch world: no scraping occurs. -/
def find_deals (category : String) (min_discount : Int) (limit : Int) :
    DealsResponse :=
  { message := "Deals endpoint coming soon!",
    category := category,
    min_discount := toString min_discount ++ "%",
    note := "This requires scraping Amazon's deals pages - will implement next" }

/-- A locator fetch that fails at the HTTP layer: the request raises, or
the response is 503, or `raise_for_status` raises (4xx/5xx). -/
def fetchFails : FetchResult → Prop
  | .netError => True
  | .page st _ => st = 503 ∨ (400 ≤ st ∧ st < 600)

/-- A page on which two price selectors (positions 2 and 3) both match. -/
def docTwoPrices : Doc :=
  ⟨fun sel =>
    if sel = "span#priceblock_dealprice" then ["$5.00"]
    else if sel = "span#priceblock_ourprice" then ["$7.50"]
    else []⟩

/-- A page whose first title selector (`#productTitle`) matches only an
element with empty text, while a later selector (`h1.a-size-large`)
matches an element with non-empty text; a price is present so the page
extraction succeeds. -/
def docEmptyTitle : Doc :=
  ⟨fun sel =>
    if sel = "#productTitle" then [""]
    else if sel = "h1.a-size-large" then ["Nice Product"]
    else if sel = "span.a-price-whole" then ["$5.00"]
    else []⟩

/-- A world serving `docEmptyTitle` for the first candidate URL of
identifier `B00TEST`. -/
def worldEmptyTitle : String → FetchResult := fun url =>
  if url = "https://www.amazon.com/dp/B00TEST" then FetchResult.page 200 docEmptyTitle
  else FetchResult.netError

/-- Sample rows: two in-window rows for `"X"`, one too old, one for
another identifier. -/
def rowA : Row := ⟨"X", "TitleA", mkRat 5 1, "USD", 10, "u1"⟩

def rowB : Row := ⟨"X", "TitleB", mkRat 7 1, "USD", 8, "u2"⟩

def rowC : Row := ⟨"X", "TitleC", mkRat 9 1, "USD", 1, "u3"⟩

def rowD : Row := ⟨"Y", "TitleD", mkRat 3 1, "USD", 10, "u4"⟩

def dbSample : List Row := [rowB, rowA, rowC, rowD]

def pdX1 : ProductData := ⟨"X", "T1", mkRat 5 1, "USD", "u1"⟩

def pdX2 : ProductData := ⟨"X", "T2", mkRat 7 1, "USD", "u2"⟩

example : parsePrice "$1,234.56" = some (mkRat 123456 100) := by decide
example : parsePrice "Price: 19.99 each" = some (mkRat 1999 100) := by decide
example : parsePrice "no digits here" = none := by decide
example : parsePrice ",." = none := by decide
example : (mkRat 123456 100 : ℚ) = 1234.56 := by norm_num [Rat.mkRat_eq_div]

/-! ### Generic lemmas about the first-hit search -/

theorem firstSome_cons_some {α β : Type} {f : α → Option β} {x : α} {b : β}
    (xs : List α) (h : f x = some b) : firstSome f (x :: xs) = some b := by
  simp [firstSome, h]

theorem firstSome_cons_none {α β : Type} {f : α → Option β} {x : α}
    (xs : List α) (h : f x = none) : firstSome f (x :: xs) = firstSome f xs := by
  simp [firstSome, h]

theorem firstSome_eq_none {α β : Type} {f : α → Option β} {l : List α}
    (h : ∀ x ∈ l, f x = none) : firstSome f l = none := by
  induction l with
  | nil => rfl
  | cons x xs ih =>
    rw [firstSome_cons_none xs (h x (List.mem_cons_self x xs))]
    exact ih fun y hy => h y (List.mem_cons_of_mem x hy)

theorem exists_of_firstSome_eq_some {α β : Type} {f : α → Option β} {l : List α}
    {b : β} (h : firstSome f l = some b) : ∃ x ∈ l, f x = some b := by
  induction l with
  | nil => simp [firstSome] at h
  | cons x xs ih =>
    cases hx : f x with
    | some c =>
      rw [firstSome_cons_some xs hx] at h
      exact ⟨x, List.mem_cons_self x xs, hx.trans h⟩
    | none =>
      rw [firstSome_cons_none xs hx] at h
      obtain ⟨y, hy, hfy⟩ := ih h
      exact ⟨y, List.mem_cons_of_mem x hy, hfy⟩

theorem firstSome_eq_some_of_take {α β : Type} {f : α → Option β} {l : List α}
    {i : ℕ} {x : α} {b : β} (hx : l[i]? = some x)
    (hpre : ∀ y ∈ l.take i, f y = none) (hfx : f x = some b) :
    firstSome f l = some b := by
  induction l generalizing i with
  | nil => simp at hx
  | cons z zs ih =>
    cases i with
    | zero =>
      simp only [List.getElem?_cons_zero, Option.some.injEq] at hx
      subst hx
      exact firstSome_cons_some zs hfx
    | succ n =>
      have hz : f z = none := hpre z (by simp [List.take_succ_cons])
      rw [firstSome_cons_none zs hz]
      exact ih (by simpa using hx)
        (fun y hy => hpre y (by simp [List.take_succ_cons]; exact Or.inr hy))

/-! ### Non-negativity of every extracted price -/

theorem parseDecimal_nonneg {cs : List Char} {q : ℚ}
    (h : parseDecimal cs = some q) : 0 ≤ q := by
  unfold parseDecimal at h
  split at h
  · split at h
    · exact absurd h (by simp)
    · cases h
      exact Rat.mkRat_nonneg (Int.natCast_nonneg _) _
  · split at h
    · split at h
      · exact absurd h (by simp)
      · cases h
        exact Rat.mkRat_nonneg (Int.natCast_nonneg _) _
    · exact absurd h (by simp)
  · exact absurd h (by simp)

theorem parsePrice_nonneg {s : String} {q : ℚ}
    (h : parsePrice s = some q) : 0 ≤ q := by
  unfold parsePrice at h
  split at h
  · exact absurd h (by simp)
  · exact parseDecimal_nonneg h

theorem findPrice_nonneg {doc : Doc} {q : ℚ} (h : findPrice doc = some q) :
    0 ≤ q := by
  obtain ⟨sel, _, hsel⟩ := exists_of_firstSome_eq_some h
  obtain ⟨t, _, ht⟩ := exists_of_firstSome_eq_some hsel
  exact parsePrice_nonneg ht

theorem mockProduct_price_nonneg (asin : String) : 0 ≤ (mockProduct asin).price :=
  Rat.mkRat_nonneg (by norm_num) _

theorem tryUrl_some {world : String → FetchResult} {asin url : String}
    {pd : ProductData} (h : tryUrl world asin url = some pd) :
    0 ≤ pd.price ∧ pd.asin = asin := by
  unfold tryUrl at h
  split at h
  · exact absurd h (by simp)
  · split at h
    · exact absurd h (by simp)
    · split at h
      · exact absurd h (by simp)
      · split at h
        · cases h
          exact ⟨findPrice_nonneg (by assumption), rfl⟩
        · exact absurd h (by simp)

theorem scrape_amazon_price_spec (world : String → FetchResult) (asin : String) :
    0 ≤ (scrape_amazon_price world asin).price ∧
    (scrape_amazon_price world asin).asin = asin := by
  unfold scrape_amazon_price
  split
  · next pd h =>
    obtain ⟨url, _, hurl⟩ := exists_of_firstSome_eq_some h
    exact tryUrl_some hurl
  · exact ⟨mockProduct_price_nonneg asin, rfl⟩

/-- C1: for every identifier string (no validation precondition), the
get-current-price operation completes successfully — `get_current_price` is
a total function of the fetch world, so no fetch, parse, or extraction
failure inside the extractor propagates as an error (the HTTP layer
serializes its value with status 200) — and the result's price field is a
non-negative number tagged with the requested identifier. -/
theorem C1_get_current_price_total_nonneg :
    ∀ (world : String → FetchResult) (asin : String) (db : List Row) (now : Int),
      0 ≤ (get_current_price world asin db now).1.current_price ∧
      (get_current_price world asin db now).1.asin = asin := by
  intro world asin db now
  exact scrape_amazon_price_spec world asin

/-! ### C2: total fetch failure degrades to the mock placeholder -/

theorem tryUrl_eq_none_of_fetchFails {world : String → FetchResult}
    {asin url : String} (h : fetchFails (world url)) :
    tryUrl world asin url = none := by
  unfold tryUrl
  cases hw : world url with
  | netError => rfl
  | page st doc =>
    rw [hw] at h
    simp only [fetchFails] at h
    rcases h with h503 | h4xx
    · simp [h503]
    · rcases eq_or_ne st 503 with he | hne
      · simp [he]
      · simp [hne, h4xx]

theorem string_toList_append (s t : String) :
    (s ++ t).toList = s.toList ++ t.toList :=
  String.data_append s t

/-- C2: if every locator fetch fails (request raises, 503, or 4xx/5xx),
the extractor returns the placeholder observation: the single fixed
default price 99.99, a title carrying the recognizable "Mock" marker and
tagging the identifier, and the first locator in the candidate list as
its source URL. -/
theorem C2_placeholder_on_total_fetch_failure (world : String → FetchResult)
    (asin : String) (h : ∀ url ∈ urls_to_try asin, fetchFails (world url)) :
    scrape_amazon_price world asin = mockProduct asin ∧
    (mockProduct asin).price = mkRat 9999 100 ∧
    (mkRat 9999 100 : ℚ) = 99.99 ∧
    (urls_to_try asin).head? = some (mockProduct asin).url ∧
    "Mock".toList <+: (mockProduct asin).title.toList ∧
    asin.toList <:+: (mockProduct asin).title.toList := by
  refine ⟨?_, rfl, by norm_num [Rat.mkRat_eq_div], rfl, ?_, ?_⟩
  · unfold scrape_amazon_price
    rw [firstSome_eq_none (fun url hu => tryUrl_eq_none_of_fetchFails (h url hu))]
  · have ht : (mockProduct asin).title.toList =
        ("Mock Product ".toList ++ asin.toList) ++
          " (Scraping blocked - need proxy)".toList := by
      rw [show (mockProduct asin).title =
        "Mock Product " ++ asin ++ " (Scraping blocked - need proxy)" from rfl,
        string_toList_append, string_toList_append]
    rw [ht]
    exact ((show "Mock".toList <+: "Mock Product ".toList by decide).trans
      (List.prefix_append _ _)).trans (List.prefix_append _ _)
  · refine ⟨"Mock Product ".toList, " (Scraping blocked - need proxy)".toList, ?_⟩
    rw [show (mockProduct asin).title =
      "Mock Product " ++ asin ++ " (Scraping blocked - need proxy)" from rfl,
      string_toList_append, string_toList_append]

/-- Witness for C2 at a concrete identifier and a world where every
request raises. -/
theorem C2_placeholder_witness :
    scrape_amazon_price (fun _ => FetchResult.netError) "B00EXAMPLE" =
      mockProduct "B00EXAMPLE" ∧
    (mockProduct "B00EXAMPLE").price = mkRat 9999 100 ∧
    (mkRat 9999 100 : ℚ) = 99.99 ∧
    (urls_to_try "B00EXAMPLE").head? = some (mockProduct "B00EXAMPLE").url ∧
    "Mock".toList <+: (mockProduct "B00EXAMPLE").title.toList ∧
    "B00EXAMPLE".toList <:+: (mockProduct "B00EXAMPLE").title.toList :=
  C2_placeholder_on_total_fetch_failure _ _ (fun _ _ => True.intro)

/-! ### C5/C6: the numeric extraction and selector precedence -/

theorem parseDecimal_no_digit {l : List Char}
    (h : ∀ c ∈ l, c.isDigit = false) : parseDecimal l = none := by
  have htake : l.takeWhile Char.isDigit = [] := by
    refine List.eq_nil_iff_forall_not_mem.mpr fun x hx => ?_
    have h1 := List.mem_takeWhile_imp hx
    have h2 := (List.takeWhile_sublist _).mem hx
    rw [h x h2] at h1
    cases h1
  have hdrop : l.dropWhile Char.isDigit = l := by
    cases l with
    | nil => rfl
    | cons c cs => simp [List.dropWhile_cons, h c (List.mem_cons_self c cs)]
  unfold parseDecimal
  rw [hdrop, htake]
  cases l with
  | nil => rfl
  | cons c cs =>
    split
    · next heq => exact absurd heq (by simp)
    · next ds heq =>
      obtain ⟨rfl, rfl⟩ : c = '.' ∧ cs = ds := by
        injection heq with h1 h2; exact ⟨h1, h2⟩
      cases cs with
      | nil => simp
      | cons d ds' =>
        have hd : d.isDigit = false := h d (by simp)
        simp [List.all_cons, hd]
    · rfl

theorem groupFrom_mem_no_digit {cs : List Char} {g : List Char}
    (h : ∀ c ∈ cs, c.isDigit = false) (hg : groupFrom cs = some g) :
    ∀ x ∈ g, x.isDigit = false := by
  induction cs with
  | nil => cases hg
  | cons c cs ih =>
    unfold groupFrom at hg
    split at hg
    · cases hg
      intro x hx
      rcases List.mem_append.mp hx with hrun | hdot
      · exact h x ((List.takeWhile_sublist _).mem hrun)
      · revert hdot
        split
        · next ds heq =>
          intro hdot
          rcases List.mem_cons.mp hdot with rfl | hds
          · rfl
          · have h1 := List.mem_takeWhile_imp hds
            have h2 : x ∈ ds := (List.takeWhile_sublist _).mem hds
            have h3 : x ∈ c :: cs := (List.dropWhile_sublist _).mem (by
              rw [heq]; exact List.mem_cons_of_mem _ h2)
            rw [h x h3] at h1
            cases h1
        · intro hdot
          cases hdot
    · exact ih (fun y hy => h y (List.mem_cons_of_mem c hy)) hg

theorem parsePrice_eq_none_of_no_digit {s : String}
    (h : ∀ c ∈ s.toList, c.isDigit = false) : parsePrice s = none := by
  unfold parsePrice
  cases hg : groupFrom s.toList with
  | none => rfl
  | some g =>
    exact parseDecimal_no_digit fun c hc =>
      groupFrom_mem_no_digit h hg c (List.mem_of_mem_filter hc)

/-- C5: numeric price extraction on an element's text: `"$1,234.56"`
yields 1234.56 and `"Price: 19.99 each"` yields 19.99; text with no
digits is treated as non-matching (`none`), so the search moves on;
thousands separators are ignored; only the (single) regex capture group
is used — `groupFrom` is exactly group 1 of the search; and a regex match
whose captured string fails to parse as a number (e.g. a bare comma run)
is treated as no match: the element-level and selector-level searches
continue instead of aborting. -/
theorem C5_numeric_extraction :
    (parsePrice "$1,234.56" = some (mkRat 123456 100) ∧
      (mkRat 123456 100 : ℚ) = 1234.56) ∧
    (parsePrice "Price: 19.99 each" = some (mkRat 1999 100) ∧
      (mkRat 1999 100 : ℚ) = 19.99) ∧
    (∀ s : String, (∀ c ∈ s.toList, c.isDigit = false) → parsePrice s = none) ∧
    (parsePrice "1,234,567" = some (mkRat 1234567 1)) ∧
    (groupFrom ",oops".toList = some [','] ∧ parsePrice ",oops" = none) ∧
    (∀ (doc : Doc) (sel t : String) (ts : List String),
      doc.select sel = t :: ts → parsePrice (pyStrip t) = none →
      extractPriceFromSelector doc sel =
        firstSome (fun u => parsePrice (pyStrip u)) ts) ∧
    (∀ (doc : Doc) (sel : String) (sels : List String),
      extractPriceFromSelector doc sel = none →
      firstSome (extractPriceFromSelector doc) (sel :: sels) =
        firstSome (extractPriceFromSelector doc) sels) := by
  refine ⟨⟨by decide, by norm_num [Rat.mkRat_eq_div]⟩,
    ⟨by decide, by norm_num [Rat.mkRat_eq_div]⟩,
    fun s hs => parsePrice_eq_none_of_no_digit hs,
    by decide, ⟨by decide, by decide⟩, ?_, ?_⟩
  · intro doc sel t ts hsel ht
    unfold extractPriceFromSelector
    rw [hsel]
    exact firstSome_cons_none ts ht
  · intro doc sel sels hsel
    exact firstSome_cons_none sels hsel

/-- Witness for C5's conditional parts at concrete inputs: a digit-free
string parses to nothing, a failing first element is skipped, and a
priceless selector is skipped. -/
theorem C5_numeric_extraction_witness :
    parsePrice "no price available" = none ∧
    extractPriceFromSelector ⟨fun _ => ["oops", "$19.99"]⟩ "span.a-price-whole" =
      firstSome (fun u => parsePrice (pyStrip u)) ["$19.99"] ∧
    firstSome (extractPriceFromSelector ⟨fun _ => []⟩) ("a" :: ["b"]) =
      firstSome (extractPriceFromSelector ⟨fun _ => []⟩) ["b"] := by
  obtain ⟨_, _, h3, _, _, h6, h7⟩ := C5_numeric_extraction
  exact ⟨h3 _ (by decide), h6 _ _ _ _ rfl (by decide), h7 _ _ _ (by decide)⟩

/-- C6: price selector precedence — when a selector at position `i` in the
priority list yields a parseable number, a later selector at position
`j > i` also yields one, and no selector before position `i` yields any,
the extractor returns the earlier selector's value: the first parseable
number stops the search. -/
theorem C6_selector_precedence (doc : Doc) (i j : ℕ) (si sj : String)
    (p q : ℚ) (hij : i < j) (hi : price_selectors[i]? = some si)
    (hj : price_selectors[j]? = some sj)
    (hpi : extractPriceFromSelector doc si = some p)
    (hpj : extractPriceFromSelector doc sj = some q)
    (hearlier : ∀ sk ∈ price_selectors.take i,
      extractPriceFromSelector doc sk = none) :
    findPrice doc = some p :=
  firstSome_eq_some_of_take hi hearlier hpi

/-- Witness for C6: on `docTwoPrices` the earlier selector's 5.00 beats
the later selector's 7.50. -/
theorem C6_selector_precedence_witness :
    findPrice docTwoPrices = some (mkRat 500 100) :=
  C6_selector_precedence docTwoPrices 2 3 "span#priceblock_dealprice"
    "span#priceblock_ourprice" (mkRat 500 100) (mkRat 750 100)
    (by decide) (by decide) (by decide) (by decide) (by decide) (by decide)

/-! ### C7: title extraction takes the first matching selector, empty or not -/

/-- C7 counterexample: on `docEmptyTitle` the earlier title selector
matches only an empty-text element and a later selector matches
"Nice Product", yet the title returned is the synthetic label
"Product B00TEST", not the later selector's non-empty text — the code
breaks on the first selector that matches at all. -/
theorem C7_counterexample :
    docEmptyTitle.select "#productTitle" = [""] ∧
    docEmptyTitle.select "h1.a-size-large" = ["Nice Product"] ∧
    (scrape_amazon_price worldEmptyTitle "B00TEST").title = "Product B00TEST" ∧
    "Product B00TEST" ≠ "Nice Product" :=
  ⟨rfl, rfl, by decide, by decide⟩

/-- C7 (amended): title extraction applies the prioritized selector list
in fixed order and the first selector whose `select_one` matches any
element wins — the stripped text of its first matched element is taken
even when empty, in which case the synthetic label `"Product " ++ asin`
is substituted; later selectors are never consulted once one matches;
and when no selector matches any element at all, the title search yields
nothing and the synthetic label is used as well. -/
theorem C7_amended_first_match_wins :
    (∀ (doc : Doc) (i : ℕ) (si t asin : String),
      title_selectors[i]? = some si →
      (∀ sk ∈ title_selectors.take i, selectOne doc sk = none) →
      selectOne doc si = some t →
      findTitle doc = some (pyStrip t) ∧
      effTitle doc asin =
        (if pyStrip t = "" then "Product " ++ asin else pyStrip t)) ∧
    (∀ (doc : Doc) (asin : String),
      (∀ sk ∈ title_selectors, selectOne doc sk = none) →
      findTitle doc = none ∧ effTitle doc asin = "Product " ++ asin) := by
  constructor
  · intro doc i si t asin hi hearlier ht
    have hf : findTitle doc = some (pyStrip t) :=
      firstSome_eq_some_of_take hi (fun y hy => by simp [hearlier y hy])
        (by rw [ht]; rfl)
    refine ⟨hf, ?_⟩
    unfold effTitle
    rw [hf]
    rfl
  · intro doc asin hnone
    have hf : findTitle doc = none :=
      firstSome_eq_none (fun sk hk => by simp [hnone sk hk])
    refine ⟨hf, ?_⟩
    unfold effTitle
    rw [hf]
    rfl

/-- Witness for the amended C7: on `docEmptyTitle` the first selector
matches the empty text, so the synthetic label is used; on
`docTwoPrices` (whose title selectors match nothing) the search yields
nothing and the synthetic label is used as well. -/
theorem C7_amended_witness :
    (findTitle docEmptyTitle = some (pyStrip "") ∧
      effTitle docEmptyTitle "B00TEST" =
        (if pyStrip "" = "" then "Product " ++ "B00TEST" else pyStrip "")) ∧
    (findTitle docTwoPrices = none ∧
      effTitle docTwoPrices "B00TEST" = "Product " ++ "B00TEST") :=
  ⟨C7_amended_first_match_wins.1 docEmptyTitle 0 "#productTitle" "" "B00TEST"
      (by decide) (by decide) (by decide),
    C7_amended_first_match_wins.2 docTwoPrices "B00TEST" (by decide)⟩

/-! ### C9: find-deals echoes category and minDiscount but not limit -/

/-- C9 counterexample: two calls differing only in `limit` produce the
same response, so no function of the response recovers the limit — the
response does not reflect the given limit value. -/
theorem C9_counterexample :
    find_deals "electronics" 20 10 = find_deals "electronics" 20 999 ∧
    ¬∃ f : DealsResponse → Int, ∀ c m l, f (find_deals c m l) = l := by
  refine ⟨rfl, ?_⟩
  rintro ⟨f, hf⟩
  have h0 := hf "e" 0 0
  have h1 := hf "e" 0 1
  rw [show find_deals "e" 0 1 = find_deals "e" 0 0 from rfl, h0] at h1
  cases h1

/-- C9 (amended): for every category, minDiscount, and limit, find-deals
performs no scraping (it is a pure function independent of any fetch
world) and returns a static acknowledgment echoing the category and the
minDiscount (as a percent string); the limit is accepted but not
reflected in the response. -/
theorem C9_amended_static_acknowledgment (category : String)
    (min_discount limit limit' : Int) :
    (find_deals category min_discount limit).category = category ∧
    (find_deals category min_discount limit).min_discount =
      toString min_discount ++ "%" ∧
    (find_deals category min_discount limit).message =
      "Deals endpoint coming soon!" ∧
    find_deals category min_discount limit =
      find_deals category min_discount limit' :=
  ⟨rfl, rfl, rfl, rfl⟩

/-! ### Store lemmas: window query, ordering, aggregates -/

theorem foldl_min_le_init (a : ℚ) (l : List ℚ) : l.foldl min a ≤ a := by
  induction l generalizing a with
  | nil => exact le_refl a
  | cons x xs ih => exact le_trans (ih (min a x)) (min_le_left a x)

theorem foldl_min_le_mem {x : ℚ} (a : ℚ) {l : List ℚ} (hx : x ∈ l) :
    l.foldl min a ≤ x := by
  induction l generalizing a with
  | nil => cases hx
  | cons y ys ih =>
    rcases List.mem_cons.mp hx with rfl | h
    · exact le_trans (foldl_min_le_init (min a x) ys) (min_le_right a x)
    · exact ih (min a y) h

theorem foldl_min_mem (a : ℚ) (l : List ℚ) :
    l.foldl min a = a ∨ l.foldl min a ∈ l := by
  induction l generalizing a with
  | nil => exact Or.inl rfl
  | cons x xs ih =>
    rcases ih (min a x) with h | h
    · rcases le_total a x with hax | hxa
      · exact Or.inl (by rw [List.foldl_cons, h, min_eq_left hax])
      · exact Or.inr (by rw [List.foldl_cons, h, min_eq_right hxa]; exact List.mem_cons_self x xs)
    · exact Or.inr (List.mem_cons_of_mem x h)

theorem le_foldl_max_init (a : ℚ) (l : List ℚ) : a ≤ l.foldl max a := by
  induction l generalizing a with
  | nil => exact le_refl a
  | cons x xs ih => exact le_trans (le_max_left a x) (ih (max a x))

theorem le_foldl_max_mem {x : ℚ} (a : ℚ) {l : List ℚ} (hx : x ∈ l) :
    x ≤ l.foldl max a := by
  induction l generalizing a with
  | nil => cases hx
  | cons y ys ih =>
    rcases List.mem_cons.mp hx with rfl | h
    · exact le_trans (le_max_right a x) (le_foldl_max_init (max a x) ys)
    · exact ih (max a y) h

theorem foldl_max_mem (a : ℚ) (l : List ℚ) :
    l.foldl max a = a ∨ l.foldl max a ∈ l := by
  induction l generalizing a with
  | nil => exact Or.inl rfl
  | cons x xs ih =>
    rcases ih (max a x) with h | h
    · rcases le_total a x with hax | hxa
      · exact Or.inr (by rw [List.foldl_cons, h, max_eq_right hax]; exact List.mem_cons_self x xs)
      · exact Or.inl (by rw [List.foldl_cons, h, max_eq_left hxa])
    · exact Or.inr (List.mem_cons_of_mem x h)

theorem rowMatches_iff {X : String} {days now : Int} {r : Row} :
    rowMatches X days now r = true ↔ r.asin = X ∧ now - days ≤ r.timestamp := by
  simp [rowMatches]

theorem queryRows_perm (db : List Row) (X : String) (days now : Int) :
    (queryRows db X days now).Perm (db.filter (rowMatches X days now)) :=
  List.perm_insertionSort rowGE _

theorem queryRows_mem_iff (db : List Row) (X : String) (days now : Int)
    (r : Row) :
    r ∈ queryRows db X days now ↔
      r ∈ db ∧ r.asin = X ∧ now - days ≤ r.timestamp := by
  rw [(queryRows_perm db X days now).mem_iff, List.mem_filter, rowMatches_iff]

theorem foldl_save (obs : List (ProductData × Int)) (init : List Row) :
    obs.foldl (fun d o => save_price_to_db d o.1 o.2) init =
      init ++ obs.map (fun o => mkRow o.1 o.2) := by
  induction obs generalizing init with
  | nil => simp
  | cons o os ih =>
    rw [List.foldl_cons, ih, List.map_cons]
    simp [save_price_to_db]

/-- C3: the store query returns exactly the observations for the
identifier whose capture timestamp lies in the trailing window (stated
both as a permutation with the matching-row filter and as a membership
characterization), ordered newest first; on a non-empty result the
derived lowest/highest are the true min/max of the returned prices
(attained and bounding) and the title is taken from the first row of the
newest-first ordering; appending N in-window observations for the
identifier to an empty store and querying returns exactly N rows; and an
empty result produces the no-data sentinel `none`. -/
theorem C3_store_query_correct (db : List Row) (X : String) (days now : Int) :
    (queryRows db X days now).Perm (db.filter (rowMatches X days now)) ∧
    (∀ r : Row, r ∈ queryRows db X days now ↔
      r ∈ db ∧ r.asin = X ∧ now - days ≤ r.timestamp) ∧
    List.Sorted rowGE (queryRows db X days now) ∧
    (queryRows db X days now = [] →
      get_price_history_from_db db X days now = none) ∧
    (∀ (r : Row) (rs : List Row), queryRows db X days now = r :: rs →
      get_price_history_from_db db X days now = some
        { asin := X, title := r.title,
          price_history := (r :: rs).map (fun x => (x.price, x.timestamp)),
          lowest_price := (rs.map Row.price).foldl min r.price,
          highest_price := (rs.map Row.price).foldl max r.price } ∧
      ((rs.map Row.price).foldl min r.price ∈ (r :: rs).map Row.price ∧
        ∀ p ∈ (r :: rs).map Row.price, (rs.map Row.price).foldl min r.price ≤ p) ∧
      ((rs.map Row.price).foldl max r.price ∈ (r :: rs).map Row.price ∧
        ∀ p ∈ (r :: rs).map Row.price, p ≤ (rs.map Row.price).foldl max r.price)) ∧
    (∀ obs : List (ProductData × Int),
      (∀ o ∈ obs, o.1.asin = X ∧ now - days ≤ o.2) →
      (queryRows (obs.foldl (fun d o => save_price_to_db d o.1 o.2) [])
        X days now).length = obs.length) := by
  refine ⟨queryRows_perm db X days now, queryRows_mem_iff db X days now,
    List.sorted_insertionSort rowGE _, ?_, ?_, ?_⟩
  · intro hq
    unfold get_price_history_from_db
    rw [hq]
  · intro r rs hq
    refine ⟨?_, ⟨?_, ?_⟩, ⟨?_, ?_⟩⟩
    · unfold get_price_history_from_db
      rw [hq]
    · rcases foldl_min_mem r.price (rs.map Row.price) with h | h
      · rw [List.map_cons, h]; exact List.mem_cons_self _ _
      · rw [List.map_cons]; exact List.mem_cons_of_mem _ h
    · intro p hp
      rw [List.map_cons] at hp
      rcases List.mem_cons.mp hp with rfl | h
      · exact foldl_min_le_init _ _
      · exact foldl_min_le_mem _ h
    · rcases foldl_max_mem r.price (rs.map Row.price) with h | h
      · rw [List.map_cons, h]; exact List.mem_cons_self _ _
      · rw [List.map_cons]; exact List.mem_cons_of_mem _ h
    · intro p hp
      rw [List.map_cons] at hp
      rcases List.mem_cons.mp hp with rfl | h
      · exact le_foldl_max_init _ _
      · exact le_foldl_max_mem _ h
  · intro obs hobs
    rw [foldl_save obs [], List.nil_append]
    have hfull : (obs.map (fun o => mkRow o.1 o.2)).filter
        (rowMatches X days now) = obs.map (fun o => mkRow o.1 o.2) := by
      refine List.filter_eq_self.mpr fun r hr => ?_
      obtain ⟨o, ho, rfl⟩ := List.mem_map.mp hr
      exact rowMatches_iff.mpr ⟨(hobs o ho).1, (hobs o ho).2⟩
    rw [(queryRows_perm _ X days now).length_eq, hfull, List.length_map]

/-- Witness for C3 on `dbSample` with window 5 ending at time 12: the
query returns the two in-window rows newest first, the aggregate is
derived from them, and appending two in-window observations to an empty
store yields a two-row query result. -/
theorem C3_store_query_witness :
    get_price_history_from_db dbSample "X" 5 12 = some
      { asin := "X", title := rowA.title,
        price_history := [rowA, rowB].map (fun x => (x.price, x.timestamp)),
        lowest_price := ([rowB].map Row.price).foldl min rowA.price,
        highest_price := ([rowB].map Row.price).foldl max rowA.price } ∧
    (∀ p ∈ [rowA, rowB].map Row.price,
      ([rowB].map Row.price).foldl min rowA.price ≤ p) ∧
    (queryRows ([(pdX1, (10 : Int)), (pdX2, 8)].foldl
        (fun d o => save_price_to_db d o.1 o.2) []) "X" 5 12).length = 2 := by
  obtain ⟨-, -, -, -, h5, h6⟩ := C3_store_query_correct dbSample "X" 5 12
  obtain ⟨hsome, ⟨-, hmin⟩, -⟩ := h5 rowA [rowB] (by decide)
  exact ⟨hsome, hmin, h6 _ (by decide)⟩

theorem get_price_history_fresh (world : String → FetchResult) (X : String)
    (days : Int) (db : List Row) (now : Int)
    (hfilter : db.filter (rowMatches X days now) = []) :
    get_price_history world X days db now =
      ({ asin := X, title := (scrape_amazon_price world X).title,
         price_history := [((scrape_amazon_price world X).price, now)],
         lowest_price := (scrape_amazon_price world X).price,
         highest_price := (scrape_amazon_price world X).price },
       db ++ [mkRow (scrape_amazon_price world X) now], 1) := by
  have hq : queryRows db X days now = [] := by
    unfold queryRows sortDesc
    rw [hfilter]
    rfl
  have hnone : get_price_history_from_db db X days now = none := by
    unfold get_price_history_from_db
    rw [hq]
  unfold get_price_history
  rw [hnone]
  rfl

/-- C4: for an identifier with zero prior observations in the store, the
get-history handler performs exactly one extractor invocation (the
invocation counter is 1) and exactly one append (the database grows by
exactly the one new row), and returns a single-entry history whose
lowest, highest and entry price all equal the freshly extracted price. -/
theorem C4_history_fallback_on_empty (world : String → FetchResult)
    (X : String) (days : Int) (db : List Row) (now : Int)
    (h : ∀ r ∈ db, r.asin ≠ X) :
    get_price_history world X days db now =
      ({ asin := X, title := (scrape_amazon_price world X).title,
         price_history := [((scrape_amazon_price world X).price, now)],
         lowest_price := (scrape_amazon_price world X).price,
         highest_price := (scrape_amazon_price world X).price },
       db ++ [mkRow (scrape_amazon_price world X) now], 1) :=
  get_price_history_fresh world X days db now
    (List.filter_eq_nil_iff.mpr fun r hr => by simp [rowMatches, h r hr])

/-- Witness for C4 on an empty store and an all-failing world. -/
theorem C4_history_fallback_witness :
    get_price_history (fun _ => FetchResult.netError) "B00Z" 30 [] 0 =
      ({ asin := "B00Z",
         title := (scrape_amazon_price (fun _ => FetchResult.netError) "B00Z").title,
         price_history :=
           [((scrape_amazon_price (fun _ => FetchResult.netError) "B00Z").price, 0)],
         lowest_price :=
           (scrape_amazon_price (fun _ => FetchResult.netError) "B00Z").price,
         highest_price :=
           (scrape_amazon_price (fun _ => FetchResult.netError) "B00Z").price },
       [] ++ [mkRow (scrape_amazon_price (fun _ => FetchResult.netError) "B00Z") 0],
       1) :=
  C4_history_fallback_on_empty _ "B00Z" 30 [] 0 (by simp)

/-- C10 (implicit): the fetch-and-append fallback of get-history is taken
if and only if the window query returns no rows — in particular, when the
identifier does have prior observations but all of them fall outside the
requested day window, a fresh observation is fetched, appended, and
returned as a single-entry history despite the existing stored history. -/
theorem C10_fallback_iff_window_empty (world : String → FetchResult)
    (X : String) (days now : Int) :
    (∀ db : List Row,
      ((get_price_history world X days db now).2.2 = 1 ↔
        queryRows db X days now = [])) ∧
    (∀ db : List Row, (∃ r ∈ db, r.asin = X) →
      (∀ r ∈ db, r.asin = X → r.timestamp < now - days) →
      get_price_history world X days db now =
        ({ asin := X, title := (scrape_amazon_price world X).title,
           price_history := [((scrape_amazon_price world X).price, now)],
           lowest_price := (scrape_amazon_price world X).price,
           highest_price := (scrape_amazon_price world X).price },
         db ++ [mkRow (scrape_amazon_price world X) now], 1)) := by
  constructor
  · intro db
    unfold get_price_history get_price_history_from_db
    cases hq : queryRows db X days now with
    | nil => simp
    | cons r rs => simp
  · intro db hex hall
    refine get_price_history_fresh world X days db now
      (List.filter_eq_nil_iff.mpr fun r hr => ?_)
    by_cases ha : r.asin = X
    · have ht := hall r hr ha
      simp only [rowMatches_iff, not_and, ha]
      intro
      omega
    · simp [rowMatches, ha]

/-- Witness for C10: a store holding only an out-of-window observation
for the identifier still triggers the fallback. -/
theorem C10_fallback_witness :
    (((get_price_history (fun _ => FetchResult.netError) "X" 5
        [⟨"X", "Old", mkRat 1 1, "USD", 0, "u"⟩] 100).2.2 = 1) ↔
      queryRows [⟨"X", "Old", mkRat 1 1, "USD", 0, "u"⟩] "X" 5 100 = []) ∧
    get_price_history (fun _ => FetchResult.netError) "X" 5
        [⟨"X", "Old", mkRat 1 1, "USD", 0, "u"⟩] 100 =
      ({ asin := "X",
         title := (scrape_amazon_price (fun _ => FetchResult.netError) "X").title,
         price_history :=
           [((scrape_amazon_price (fun _ => FetchResult.netError) "X").price, 100)],
         lowest_price :=
           (scrape_amazon_price (fun _ => FetchResult.netError) "X").price,
         highest_price :=
           (scrape_amazon_price (fun _ => FetchResult.netError) "X").price },
       [⟨"X", "Old", mkRat 1 1, "USD", 0, "u"⟩] ++
         [mkRow (scrape_amazon_price (fun _ => FetchResult.netError) "X") 100],
       1) := by
  have h := C10_fallback_iff_window_empty (fun _ => FetchResult.netError) "X" 5 100
  exact ⟨h.1 _, h.2 _ (by decide) (by decide)⟩

/-- C8: the store is append-only — the insert of `save_price_to_db`
appends exactly one row and leaves every previously persisted row
unchanged (the old list is a prefix of the new one), the current-price
handler extends the database by exactly the one scraped row, and the
history handler either leaves the database unchanged or extends it by
exactly one row; no row is ever updated or deleted. -/
theorem C8_store_append_only :
    (∀ (db : List Row) (pd : ProductData) (t : Int),
      save_price_to_db db pd t = db ++ [mkRow pd t]) ∧
    (∀ (world : String → FetchResult) (asin : String) (db : List Row) (now : Int),
      (get_current_price world asin db now).2 =
        db ++ [mkRow (scrape_amazon_price world asin) now]) ∧
    (∀ (world : String → FetchResult) (asin : String) (days : Int)
        (db : List Row) (now : Int),
      (get_price_history world asin days db now).2.1 = db ∨
      (get_price_history world asin days db now).2.1 =
        db ++ [mkRow (scrape_amazon_price world asin) now]) := by
  refine ⟨fun _ _ _ => rfl, fun _ _ _ _ => rfl, fun world asin days db now => ?_⟩
  unfold get_price_history
  cases hg : get_price_history_from_db db asin days now with
  | none => exact Or.inr rfl
  | some hd => exact Or.inl rfl
